import Mathlib

/-!
Verification of the video upload / publish / resolve pipeline of the
learn-file-storage-s3-golang-starter repository.

Go strings are modelled as `List Char`; fallible Go calls (which return
`(T, error)`) are modelled as `Option`; the external collaborators of the
handler (auth, metadata store, object store, subprocesses, the random
temp-file and asset names) are supplied through an environment record, and
the handler's observable actions (file creation/removal, object upload,
record update) are collected as a list of effects, with Go `defer`
statements modelled by an explicitly threaded LIFO cleanup list.

The aspect-ratio classification in `video_aspect_ratio.go` computes with
IEEE-754 float64 arithmetic; it is modelled exactly, by a round-to-nearest,
ties-to-even rounding function on ℚ (the inputs stay far inside the normal
range, so neither subnormals nor overflow can occur).
-/

set_option maxRecDepth 8000

/-- Convert a Lean string literal to the `List Char` representation used for
Go strings throughout this development. -/
def str (s : String) : List Char := s.data

/-- Go `strings.HasPrefix(s, p)` (arguments here: prefix first, then the
string). -/
def goHasPre : List Char → List Char → Bool
  | [], _ => true
  | _ :: _, [] => false
  | p :: ps, c :: cs => p == c && goHasPre ps cs

/-- Go `strings.TrimPrefix(s, p)`. -/
def goTrimPre (p s : List Char) : List Char :=
  if goHasPre p s then s.drop p.length else s

/-- Go `strings.Split(s, sep)` for a one-character separator: splits on every
occurrence; the empty string yields one empty field, like Go's `[""]`. -/
def goSplit (sep : Char) : List Char → List (List Char)
  | [] => [[]]
  | c :: cs =>
    let rest := goSplit sep cs
    if c = sep then [] :: rest
    else
      match rest with
      | [] => [[c]]
      | r :: rs => (c :: r) :: rs

/-- Go `strings.SplitN(s, sep, 2)` for a one-character separator: the part
before the first occurrence, and `some` remainder when the separator occurs
(`none` models Go returning a single-element slice). -/
def goSplitFirst (sep : Char) : List Char → List Char × Option (List Char)
  | [] => ([], none)
  | c :: cs =>
    if c = sep then ([], some cs)
    else
      let r := goSplitFirst sep cs
      (c :: r.1, r.2)

/-- Strip leading and trailing spaces (the whitespace handling of
`mime.ParseMediaType` restricted to the space character). -/
def trimSpaces (s : List Char) : List Char :=
  (((s.dropWhile (· = ' ')).reverse.dropWhile (· = ' ')).reverse)

/-- Model of Go `mime.ParseMediaType`: the media type is the portion of the
header value before any `;` parameter section, trimmed of surrounding white
space and converted to lower case; parsing fails (Go returns an error) when
that portion is empty. Full RFC token validation and parameter parsing are
omitted; no claim in this development depends on them. -/
def parseMediaType (v : List Char) : Option (List Char) :=
  let base := (trimSpaces (v.takeWhile (· ≠ ';'))).map Char.toLower
  if base = [] then none else some base

/-! ### Exact model of float64 arithmetic

Every float64 value is a rational number; each Go operation used by
`getVideoAspectRatio` (int-to-float conversion, division, subtraction) is
the exact rational operation followed by rounding to 53 significant bits,
round-to-nearest, ties-to-even. `math.Abs` and `<` on float64 are exact.
Rationals are kept as unreduced numerator/denominator pairs (denominator
positive by construction) so that every step is plain integer arithmetic. -/

/-- An unreduced rational number: numerator `n`, positive denominator `d`. -/
structure Q where
  n : Int
  d : Int
deriving DecidableEq

/-- 2^k as an integer. -/
def intPow2 (k : Nat) : Int := ((2 ^ k : Nat) : Int)

/-- Fuel-bounded ⌊log₂⌋ on naturals (structural recursion on the fuel, so it
evaluates inside the kernel; 256 bits of fuel covers every quantity that
arises from 64-bit inputs here). -/
def natLog2Aux : Nat → Nat → Nat
  | 0, _ => 0
  | fuel + 1, m => if m ≤ 1 then 0 else natLog2Aux fuel (m / 2) + 1

/-- ⌊log₂ m⌋ for m ≥ 1. -/
def natLog2 (m : Nat) : Nat := natLog2Aux 256 m

/-- Exact comparison of two rationals with positive denominators. -/
def qlt (a b : Q) : Prop := a.n * b.d < b.n * a.d

instance (a b : Q) : Decidable (qlt a b) := by
  unfold qlt
  infer_instance

/-- Exact subtraction. -/
def qsub (a b : Q) : Q := ⟨a.n * b.d - b.n * a.d, a.d * b.d⟩

/-- Exact division, normalising the denominator's sign. -/
def qdivQ (a b : Q) : Q :=
  if a.d * b.n < 0 then ⟨-(a.n * b.d), -(a.d * b.n)⟩ else ⟨a.n * b.d, a.d * b.n⟩

/-- Exact negation. -/
def qneg (a : Q) : Q := ⟨-a.n, a.d⟩

/-- Exact absolute value (Go `math.Abs`, exact on floats). -/
def qabs (a : Q) : Q := if a.n < 0 then ⟨-a.n, a.d⟩ else a

/-- 2^e as a rational, for any integer e. -/
def pow2Q (e : Int) : Q :=
  if 0 ≤ e then ⟨intPow2 e.toNat, 1⟩ else ⟨1, intPow2 (-e).toNat⟩

/-- Round the non-negative fraction num/den (den > 0) to the nearest
integer, ties to even. -/
def roundHalfEven (num den : Int) : Int :=
  let q0 := num / den
  let rem := num % den
  if 2 * rem < den then q0
  else if den < 2 * rem then q0 + 1
  else if q0 % 2 = 0 then q0 else q0 + 1

/-- Binary exponent ⌊log₂ q⌋ of a positive rational. -/
def qexp (q : Q) : Int :=
  let a : Int := (natLog2 q.n.toNat : Int)
  let b : Int := (natLog2 q.d.toNat : Int)
  if qlt q (pow2Q (a - b)) then a - b - 1 else a - b

/-- Round a positive rational to the nearest float64 value (53-bit
significand, round-to-nearest, ties-to-even; exponent range unlimited, which
agrees with IEEE-754 on the normal range used here — the quantities involved
stay far away from both overflow and subnormals). -/
def flPos (q : Q) : Q :=
  let e := qexp q
  let scaled : Int × Int :=
    if 0 ≤ 52 - e then (q.n * intPow2 (52 - e).toNat, q.d)
    else (q.n, q.d * intPow2 (e - 52).toNat)
  let m := roundHalfEven scaled.1 scaled.2
  if 0 ≤ e - 52 then ⟨m * intPow2 (e - 52).toNat, 1⟩
  else ⟨m, intPow2 (52 - e).toNat⟩

/-- Round any rational to the nearest float64 value. -/
def fl (q : Q) : Q :=
  if q.n = 0 then ⟨0, 1⟩
  else if q.n < 0 then qneg (flPos (qneg q))
  else flPos q

/-- One stream entry of the ffprobe JSON output (`width`/`height` fields,
Go `int`). -/
structure GoStream where
  width : Int
  height : Int
deriving DecidableEq

/-- The classification arithmetic of `getVideoAspectRatio`
(video_aspect_ratio.go lines 60-68): `aspectRatio := float64(w)/float64(h)`,
then `math.Abs(aspectRatio - 16.0/9.0) < 0.1` picks "16:9",
`math.Abs(aspectRatio - 9.0/16.0) < 0.1` picks "9:16", else "other".
The Go constants `16.0/9.0`, `9.0/16.0` and `0.1` are evaluated exactly and
rounded once, which is `fl (16/9)` etc. -/
def classifyDims (w h : Int) : List Char :=
  let ar := fl (qdivQ (fl ⟨w, 1⟩) (fl ⟨h, 1⟩))
  if qlt (qabs (fl (qsub ar (fl ⟨16, 9⟩)))) (fl ⟨1, 10⟩) then str "16:9"
  else if qlt (qabs (fl (qsub ar (fl ⟨9, 16⟩)))) (fl ⟨1, 10⟩) then str "9:16"
  else str "other"

/-- The dimension-selection loop of `getVideoAspectRatio`
(video_aspect_ratio.go lines 47-54): the first stream whose width and height
are both non-zero. -/
def pickDimensions : List GoStream → Option (Int × Int)
  | [] => none
  | s :: rest =>
    if s.width ≠ 0 ∧ s.height ≠ 0 then some (s.width, s.height)
    else pickDimensions rest

/-- `getVideoAspectRatio` (video_aspect_ratio.go), modelled from the point
where the ffprobe output has been parsed: the argument is the parsed stream
list (a failed tool run or unparsable JSON never reaches this logic and is
represented by the caller passing `none` for the probe result as a whole).
`none` covers the source's "no streams found" (empty list) and
"no valid video dimensions found" (no stream with both dimensions non-zero)
errors; in both cases the function returns before the division
`float64(videoWidth) / float64(videoHeight)` is evaluated. -/
def getVideoAspectRatio (streams : List GoStream) : Option (List Char) :=
  if streams.isEmpty then none
  else
    match pickDimensions streams with
    | none => none
    | some (w, h) => some (classifyDims w h)

/-- The two fields of `database.Video` that the upload/resolve core reads or
mutates (plus the owning-user id used for the authorization check); the
remaining fields of the record are irrelevant to every claim. -/
structure DBVideo where
  userID : List Char
  videoURL : Option (List Char)
deriving DecidableEq

/-- The literal `"https://"` tested by `strings.HasPrefix` in
`dbVideoToSignedVideo`. -/
def httpsScheme : List Char := str "https://"

/-- The Location-decoding logic of `dbVideoToSignedVideo` (part_000 lines
194-221). If the stored URL starts with `"https://"`: strip that prefix,
`SplitN` on the first `/` (error `"invalid S3 URL format"` when there is no
`/`), split the domain on `.` (error `"invalid S3 domain format"` when the
split is empty — unreachable, since `strings.Split` never returns an empty
slice), bucket is the first domain label and key the remainder of the path.
Otherwise: `strings.Split` on `,`, error
`"invalid video URL format"` unless that yields exactly two parts, which
become bucket and key. `none` stands for the returned error. -/
def decodeVideoURL (url : List Char) : Option (List Char × List Char) :=
  if goHasPre httpsScheme url then
    let urlStr := goTrimPre httpsScheme url
    match goSplitFirst '/' urlStr with
    | (_, none) => none
    | (host, some path) =>
      match goSplit '.' host with
      | [] => none
      | d0 :: _ => some (d0, path)
  else
    match goSplit ',' url with
    | [b, k] => some (b, k)
    | _ => none

/-- The compact Location encoding written on publish:
`fmt.Sprintf("%s,%s", cfg.s3Bucket, key)` (part_000 line 137). -/
def encodeVideoURL (bucket key : List Char) : List Char :=
  bucket ++ ',' :: key

/-- `dbVideoToSignedVideo` (part_000 lines 187-232): an absent Location is
returned unchanged with no error; otherwise the Location is decoded and a
presigned URL (valid for the fixed `time.Hour`) is requested from the
store — the `presign` argument abstracts `generatePresignedURL`, whose work
is one AWS SDK network call — and substituted into the returned record's
Location. `none` stands for the returned error. -/
def dbVideoToSignedVideo (presign : List Char → List Char → Option (List Char))
    (video : DBVideo) : Option DBVideo :=
  match video.videoURL with
  | none => some video
  | some url =>
    match decodeVideoURL url with
    | none => none
    | some (bucket, key) =>
      match presign bucket key with
      | none => none
      | some p => some { video with videoURL := some p }

/-- Modelled from the spec: `getAssetPath` is part of this repository but not
among the provided sources; per the spec's object-key layout
(`"<geometry-category>/<opaque-id>.mp4"`, §3 and §6) it produces
`"<opaque-id>.mp4"` for the supported video media type, the opaque id being
freshly generated randomness (supplied here by the caller). -/
def getAssetPath (id : List Char) : List Char := id ++ str ".mp4"

/-- `filepath.Join(directory, key)` as used at part_000 line 136: both
arguments are non-empty and contain no leading or trailing separator, so the
Join is concatenation with a single `/`. -/
def filepathJoin (a b : List Char) : List Char := a ++ '/' :: b

/-- The observable actions of one run of the upload handler. `createTemp`,
`removeFile` and `closeFile` are the local-filesystem actions;
`fastStartOutput` records the optimized copy produced by
`processVideoForFastStart`; `putObject` records a successful object-store
upload; `updateVideo` records a successful metadata-store update with the
record that was written. -/
inductive Eff where
  | createTemp (name : List Char)
  | removeFile (name : List Char)
  | closeFile (name : List Char)
  | fastStartOutput (name : List Char)
  | putObject (bucket key : List Char)
  | updateVideo (v : DBVideo)
deriving DecidableEq

/-- The handler's response status together with the effects it performed, in
order. -/
structure HandlerResult where
  status : Nat
  effects : List Eff
deriving DecidableEq

/-- The environment of one request to `handlerUploadVideo`: the outcome of
each external interaction, in source order. `Option`/`Bool` fields model the
Go error results of the corresponding calls. -/
structure UploadEnv where
  /-- `uuid.Parse(videoIDString)` (line 30). -/
  parsedVideoID : Option (List Char)
  /-- `auth.GetBearerToken(r.Header)` (line 37). -/
  bearerToken : Option (List Char)
  /-- `auth.ValidateJWT(token, cfg.jwtSecret)` (line 43). -/
  jwtUserID : Option (List Char)
  /-- `cfg.db.GetVideo(videoID)` (line 50); `none` covers both a missing
  record and any other store failure, which the source does not
  distinguish. -/
  dbVideo : Option DBVideo
  /-- `r.FormFile("video")` (line 61); the payload is the file part's
  Content-Type header value. -/
  formFile : Option (List Char)
  /-- Whether `os.CreateTemp` (line 80) succeeds. -/
  createTempOk : Bool
  /-- The random name chosen by `os.CreateTemp`. -/
  tempName : List Char
  /-- Whether `io.Copy` (line 88) succeeds. -/
  copyOk : Bool
  /-- Whether `tempFile.Seek` (line 94) succeeds. -/
  seekOk : Bool
  /-- The ffprobe invocation and JSON parse inside `getVideoAspectRatio`
  (video_aspect_ratio.go lines 13-39): `none` when the tool exits non-zero
  or its output does not parse, otherwise the parsed stream list. -/
  probeStreams : Option (List GoStream)
  /-- Modelled from the spec: `processVideoForFastStart` is part of this
  repository but not among the provided sources; per §4.3 it produces a new
  local file and fails (`none`) when the external tool exits non-zero or the
  expected output file is not produced, in which case no output file
  exists. -/
  fastStart : Option (List Char)
  /-- Whether `os.Open(processedFilePath)` (line 126) succeeds. -/
  openOk : Bool
  /-- The random opaque id consumed by `getAssetPath`. -/
  assetID : List Char
  /-- `cfg.s3Bucket`. -/
  s3Bucket : List Char
  /-- Whether `cfg.s3Client.PutObject` (line 139) succeeds. -/
  putObjectOk : Bool
  /-- Whether `cfg.db.UpdateVideo` (line 153) succeeds. -/
  updateOk : Bool
  /-- `generatePresignedURL` as called from `dbVideoToSignedVideo`. -/
  presign : List Char → List Char → Option (List Char)

/-- The validation phase of `handlerUploadVideo` (part_000 lines 29-77),
every check in source order; the error value is the HTTP status written by
`respondWithError`. No filesystem effect happens in this phase. -/
def validateUpload (env : UploadEnv) : Except Nat (DBVideo × List Char) :=
  match env.parsedVideoID with
  | none => .error 400
  | some _ =>
  match env.bearerToken with
  | none => .error 401
  | some _ =>
  match env.jwtUserID with
  | none => .error 401
  | some userID =>
  match env.dbVideo with
  | none => .error 500
  | some video =>
  if video.userID ≠ userID then .error 401
  else
  match env.formFile with
  | none => .error 400
  | some ct =>
  match parseMediaType ct with
  | none => .error 400
  | some mediaType =>
  if mediaType ≠ str "video/mp4" then .error 400
  else .ok (video, mediaType)

/-- Assemble a handler exit: the effects performed so far followed by the
pending deferred actions (`defers` is kept in execution order, most recently
registered first, mirroring Go's LIFO `defer` semantics). -/
def finish (status : Nat) (effs defers : List Eff) : HandlerResult :=
  ⟨status, effs ++ defers⟩

/-- The processing phase of `handlerUploadVideo` (part_000 lines 79-167),
entered once validation has passed: stage the upload to a temp file
(deferring its removal and close), classify the aspect ratio, choose the
geometry directory, remux for fast start (deferring removal of the new
file), open it (deferring its close), upload to the object store under
`<directory>/<asset-id>.mp4`, persist the compact `bucket,key` Location, and
resolve the record through `dbVideoToSignedVideo`. The multipart part's
deferred `file.Close()` (line 66) touches no named local file and is not
tracked as an effect. -/
def uploadPipeline (env : UploadEnv) (video : DBVideo) : HandlerResult :=
  if env.createTempOk = false then ⟨500, []⟩
  else
  let tmp := env.tempName
  let effs0 := [Eff.createTemp tmp]
  let defers0 := [Eff.closeFile tmp, Eff.removeFile tmp]
  if env.copyOk = false then finish 500 effs0 defers0
  else if env.seekOk = false then finish 500 effs0 defers0
  else
  match env.probeStreams with
  | none => finish 500 effs0 defers0
  | some streams =>
  match getVideoAspectRatio streams with
  | none => finish 500 effs0 defers0
  | some ratio =>
  let directory := if ratio = str "16:9" then str "landscape"
    else if ratio = str "9:16" then str "portrait"
    else str "other"
  match env.fastStart with
  | none => finish 500 effs0 defers0
  | some processedPath =>
  let effs1 := effs0 ++ [Eff.fastStartOutput processedPath]
  let defers1 := Eff.removeFile processedPath :: defers0
  if env.openOk = false then finish 500 effs1 defers1
  else
  let defers2 := Eff.closeFile processedPath :: defers1
  let key := filepathJoin directory (getAssetPath env.assetID)
  let videoURL := encodeVideoURL env.s3Bucket key
  if env.putObjectOk = false then finish 500 effs1 defers2
  else
  let effs2 := effs1 ++ [Eff.putObject env.s3Bucket key]
  let video2 : DBVideo := { video with videoURL := some videoURL }
  if env.updateOk = false then finish 500 effs2 defers2
  else
  let effs3 := effs2 ++ [Eff.updateVideo video2]
  let status := match dbVideoToSignedVideo env.presign video2 with
    | none => 500
    | some _ => 200
  finish status effs3 defers2

/-- `handlerUploadVideo` (part_000 lines 22-168): validation phase followed
by the processing pipeline. -/
def handlerUploadVideo (env : UploadEnv) : HandlerResult :=
  match validateUpload env with
  | .error s => ⟨s, []⟩
  | .ok (video, _) => uploadPipeline env video

/-- A fully successful request environment, used to instantiate the general
theorems at a concrete input: a valid record id, valid credential, owning
user, a well-formed `video/mp4` part, a 1920×1080 probe result, and all
external calls succeeding. -/
def envBase : UploadEnv where
  parsedVideoID := some (str "123e4567-e89b-12d3-a456-426614174000")
  bearerToken := some (str "token")
  jwtUserID := some (str "user-1")
  dbVideo := some ⟨str "user-1", none⟩
  formFile := some (str "video/mp4")
  createTempOk := true
  tempName := str "tubely-upload-1.mp4"
  copyOk := true
  seekOk := true
  probeStreams := some [⟨1920, 1080⟩]
  fastStart := some (str "tubely-upload-1.processing.mp4")
  openOk := true
  assetID := str "vid123"
  s3Bucket := str "tubely"
  putObjectOk := true
  updateOk := true
  presign := fun _ _ => some (str "https://signed.example/url")

/-- `envBase` with the metadata-store lookup failing (record not found). -/
def envC3 : UploadEnv := { envBase with dbVideo := none }

/-- `envBase` with the file part declaring content type `image/png`. -/
def envC8 : UploadEnv := { envBase with formFile := some (str "image/png") }

/-- Exact non-strict comparison of two rationals with positive
denominators. -/
def qle (a b : Q) : Prop := a.n * b.d ≤ b.n * a.d

instance (a b : Q) : Decidable (qle a b) := by
  unfold qle
  infer_instance

/-! ### Lemmas about the Go string helpers -/

theorem goHasPre_append (p s : List Char) : goHasPre p (p ++ s) = true := by
  induction p with
  | nil => rfl
  | cons c cs ih => simp [goHasPre, ih]

theorem goHasPre_extend (c : Char) : ∀ p b k : List Char, c ∉ p →
    goHasPre p (b ++ c :: k) = true → goHasPre p b = true
  | [], _, _, _, _ => rfl
  | x :: xs, [], k, hc, h => by
    simp only [List.nil_append, goHasPre, Bool.and_eq_true, beq_iff_eq] at h
    obtain ⟨rfl, -⟩ := h
    exact absurd (List.Mem.head _) hc
  | x :: xs, y :: ys, k, hc, h => by
    simp only [List.cons_append, goHasPre, Bool.and_eq_true, beq_iff_eq] at h ⊢
    exact ⟨h.1, goHasPre_extend c xs ys k (fun hm => hc (List.Mem.tail _ hm)) h.2⟩

theorem goTrimPre_append (p s : List Char) : goTrimPre p (p ++ s) = s := by
  simp [goTrimPre, goHasPre_append, List.drop_left]

theorem goSplit_ne_nil (sep : Char) (s : List Char) : goSplit sep s ≠ [] := by
  cases s with
  | nil => simp [goSplit]
  | cons c cs =>
    simp only [goSplit]
    split
    · simp
    · split <;> simp

theorem goSplit_no_sep (sep : Char) (s : List Char) (h : sep ∉ s) :
    goSplit sep s = [s] := by
  induction s with
  | nil => rfl
  | cons c cs ih =>
    have hc : ¬(c = sep) := fun e => h (by rw [← e]; exact List.Mem.head _)
    have ih' := ih (fun hm => h (List.Mem.tail _ hm))
    simp [goSplit, hc, ih']

theorem goSplit_append (sep : Char) (b k : List Char) (hb : sep ∉ b) :
    goSplit sep (b ++ sep :: k) = b :: goSplit sep k := by
  induction b with
  | nil => simp [goSplit]
  | cons c cs ih =>
    have hc : ¬(c = sep) := fun e => hb (by rw [← e]; exact List.Mem.head _)
    have ih' := ih (fun hm => hb (List.Mem.tail _ hm))
    simp [goSplit, hc, ih']

theorem goSplit_length (sep : Char) (s : List Char) :
    (goSplit sep s).length = s.count sep + 1 := by
  induction s with
  | nil => simp [goSplit]
  | cons c cs ih =>
    by_cases hc : c = sep
    · subst hc
      simp [goSplit, List.count_cons, ih]
    · obtain ⟨r, rs, hr⟩ : ∃ r rs, goSplit sep cs = r :: rs := by
        cases h : goSplit sep cs with
        | nil => exact absurd h (goSplit_ne_nil sep cs)
        | cons r rs => exact ⟨r, rs, rfl⟩
      rw [hr] at ih
      simp only [List.length_cons] at ih
      simp [goSplit, hc, hr, List.count_cons, ih]

theorem goSplit_head_takeWhile (sep : Char) (s : List Char) :
    ∃ rest, goSplit sep s = s.takeWhile (fun x => x != sep) :: rest := by
  induction s with
  | nil => exact ⟨[], rfl⟩
  | cons c cs ih =>
    by_cases hc : c = sep
    · subst hc
      refine ⟨goSplit c cs, ?_⟩
      simp [goSplit, List.takeWhile]
    · obtain ⟨rest, hr⟩ := ih
      refine ⟨rest, ?_⟩
      have hbne : (c != sep) = true := bne_iff_ne.mpr hc
      simp [goSplit, hc, hr, List.takeWhile, hbne]

theorem goSplitFirst_none (sep : Char) (s : List Char) :
    (goSplitFirst sep s).2 = none ↔ sep ∉ s := by
  induction s with
  | nil => simp [goSplitFirst]
  | cons c cs ih =>
    by_cases hc : c = sep
    · subst hc
      simp [goSplitFirst]
    · simp only [goSplitFirst, if_neg hc]
      rw [ih]
      constructor
      · intro hn hm
        rcases List.mem_cons.mp hm with he | hm2
        · exact hc he.symm
        · exact hn hm2
      · intro hn hm
        exact hn (List.Mem.tail _ hm)

theorem goSplitFirst_append (sep : Char) (h k : List Char) (hh : sep ∉ h) :
    goSplitFirst sep (h ++ sep :: k) = (h, some k) := by
  induction h with
  | nil => simp [goSplitFirst]
  | cons c cs ih =>
    have hc : ¬(c = sep) := fun e => hh (by rw [← e]; exact List.Mem.head _)
    have ih' := ih (fun hm => hh (List.Mem.tail _ hm))
    simp [goSplitFirst, hc, ih']

/-- Validation of the float64 model against independently computed IEEE-754
double values: the model reproduces the exact binary values of the Go
constants `16.0/9.0`, `0.1`, `9.0/16.0`, of the computed quotient
`float64(151)/float64(90)`, and of a negative rounding. -/
theorem fl_reference_values :
    (fl ⟨16, 9⟩).n * 1125899906842624 = 2001599834386887 * (fl ⟨16, 9⟩).d ∧
    (fl ⟨1, 10⟩).n * 36028797018963968 = 3602879701896397 * (fl ⟨1, 10⟩).d ∧
    (fl ⟨9, 16⟩).n * 16 = 9 * (fl ⟨9, 16⟩).d ∧
    (fl (qdivQ (fl ⟨151, 1⟩) (fl ⟨90, 1⟩))).n * 4503599627370496 =
      7556039374810499 * (fl (qdivQ (fl ⟨151, 1⟩) (fl ⟨90, 1⟩))).d ∧
    (fl ⟨-1, 10⟩).n * 36028797018963968 = -3602879701896397 * (fl ⟨-1, 10⟩).d := by
  decide

/-- If no stream offers two non-zero dimensions, the selection loop selects
nothing. -/
theorem pickDimensions_none (l : List GoStream)
    (h : ∀ s ∈ l, s.width = 0 ∨ s.height = 0) : pickDimensions l = none := by
  induction l with
  | nil => rfl
  | cons s rest ih =>
    have hs := h s (List.Mem.head _)
    have hcond : ¬(s.width ≠ 0 ∧ s.height ≠ 0) := by
      rcases hs with h0 | h0 <;> simp [h0]
    simp [pickDimensions, hcond]
    exact ih (fun x hx => h x (List.Mem.tail _ hx))

/-- Every run of the upload handler produces one of six effect traces,
corresponding to the exit points of the source: validation or temp-creation
failure (no effects); failure between staging and remux (temp staged then
closed and removed); open failure after remux; object-store failure;
metadata-store failure; and the update-performed traces (presign failure or
success), which additionally record that every prior stage succeeded. -/
theorem handler_effects_shape (env : UploadEnv) :
    (handlerUploadVideo env).effects = [] ∨
    (∃ t, (handlerUploadVideo env).effects =
      [Eff.createTemp t, Eff.closeFile t, Eff.removeFile t]) ∨
    (∃ t p, (handlerUploadVideo env).effects =
      [Eff.createTemp t, Eff.fastStartOutput p, Eff.removeFile p,
       Eff.closeFile t, Eff.removeFile t]) ∨
    (∃ t p, (handlerUploadVideo env).effects =
      [Eff.createTemp t, Eff.fastStartOutput p, Eff.closeFile p,
       Eff.removeFile p, Eff.closeFile t, Eff.removeFile t]) ∨
    (∃ t p k, (handlerUploadVideo env).effects =
      [Eff.createTemp t, Eff.fastStartOutput p, Eff.putObject env.s3Bucket k,
       Eff.closeFile p, Eff.removeFile p, Eff.closeFile t, Eff.removeFile t]) ∨
    (∃ t p k v2, (handlerUploadVideo env).effects =
      [Eff.createTemp t, Eff.fastStartOutput p, Eff.putObject env.s3Bucket k,
       Eff.updateVideo v2, Eff.closeFile p, Eff.removeFile p, Eff.closeFile t,
       Eff.removeFile t] ∧
      env.createTempOk = true ∧ env.copyOk = true ∧ env.seekOk = true ∧
      env.openOk = true ∧ env.putObjectOk = true ∧
      env.fastStart.isSome = true ∧
      ∃ ss, env.probeStreams = some ss ∧
        (getVideoAspectRatio ss).isSome = true) := by
  cases hval : validateUpload env with
  | error s =>
    left
    simp [handlerUploadVideo, hval]
  | ok vm =>
  obtain ⟨video, mt⟩ := vm
  cases hct : env.createTempOk with
  | false =>
    left
    simp [handlerUploadVideo, uploadPipeline, hval, hct]
  | true =>
  cases hcp : env.copyOk with
  | false =>
    have heff : (handlerUploadVideo env).effects =
        [Eff.createTemp env.tempName, Eff.closeFile env.tempName,
         Eff.removeFile env.tempName] := by
      simp [handlerUploadVideo, uploadPipeline, hval, hct, hcp, finish]
    exact Or.inr (Or.inl ⟨_, heff⟩)
  | true =>
  cases hsk : env.seekOk with
  | false =>
    have heff : (handlerUploadVideo env).effects =
        [Eff.createTemp env.tempName, Eff.closeFile env.tempName,
         Eff.removeFile env.tempName] := by
      simp [handlerUploadVideo, uploadPipeline, hval, hct, hcp, hsk, finish]
    exact Or.inr (Or.inl ⟨_, heff⟩)
  | true =>
  cases hps : env.probeStreams with
  | none =>
    have heff : (handlerUploadVideo env).effects =
        [Eff.createTemp env.tempName, Eff.closeFile env.tempName,
         Eff.removeFile env.tempName] := by
      simp [handlerUploadVideo, uploadPipeline, hval, hct, hcp, hsk, hps,
        finish]
    exact Or.inr (Or.inl ⟨_, heff⟩)
  | some streams =>
  cases har : getVideoAspectRatio streams with
  | none =>
    have heff : (handlerUploadVideo env).effects =
        [Eff.createTemp env.tempName, Eff.closeFile env.tempName,
         Eff.removeFile env.tempName] := by
      simp [handlerUploadVideo, uploadPipeline, hval, hct, hcp, hsk, hps, har,
        finish]
    exact Or.inr (Or.inl ⟨_, heff⟩)
  | some ratio =>
  cases hfs : env.fastStart with
  | none =>
    have heff : (handlerUploadVideo env).effects =
        [Eff.createTemp env.tempName, Eff.closeFile env.tempName,
         Eff.removeFile env.tempName] := by
      simp [handlerUploadVideo, uploadPipeline, hval, hct, hcp, hsk, hps, har,
        hfs, finish]
    exact Or.inr (Or.inl ⟨_, heff⟩)
  | some pp =>
  cases hop : env.openOk with
  | false =>
    have heff : (handlerUploadVideo env).effects =
        [Eff.createTemp env.tempName, Eff.fastStartOutput pp,
         Eff.removeFile pp, Eff.closeFile env.tempName,
         Eff.removeFile env.tempName] := by
      simp [handlerUploadVideo, uploadPipeline, hval, hct, hcp, hsk, hps, har,
        hfs, hop, finish]
    exact Or.inr (Or.inr (Or.inl ⟨_, _, heff⟩))
  | true =>
  cases hpo : env.putObjectOk with
  | false =>
    have heff : (handlerUploadVideo env).effects =
        [Eff.createTemp env.tempName, Eff.fastStartOutput pp,
         Eff.closeFile pp, Eff.removeFile pp, Eff.closeFile env.tempName,
         Eff.removeFile env.tempName] := by
      simp [handlerUploadVideo, uploadPipeline, hval, hct, hcp, hsk, hps, har,
        hfs, hop, hpo, finish]
    exact Or.inr (Or.inr (Or.inr (Or.inl ⟨_, _, heff⟩)))
  | true =>
  cases hup : env.updateOk with
  | false =>
    have heff : (handlerUploadVideo env).effects =
        [Eff.createTemp env.tempName, Eff.fastStartOutput pp,
         Eff.putObject env.s3Bucket
           (filepathJoin
             (if ratio = str "16:9" then str "landscape"
               else if ratio = str "9:16" then str "portrait"
               else str "other")
             (getAssetPath env.assetID)),
         Eff.closeFile pp, Eff.removeFile pp, Eff.closeFile env.tempName,
         Eff.removeFile env.tempName] := by
      simp [handlerUploadVideo, uploadPipeline, hval, hct, hcp, hsk, hps, har,
        hfs, hop, hpo, hup, finish]
    exact Or.inr (Or.inr (Or.inr (Or.inr (Or.inl ⟨_, _, _, heff⟩))))
  | true =>
    have heff : (handlerUploadVideo env).effects =
        [Eff.createTemp env.tempName, Eff.fastStartOutput pp,
         Eff.putObject env.s3Bucket
           (filepathJoin
             (if ratio = str "16:9" then str "landscape"
               else if ratio = str "9:16" then str "portrait"
               else str "other")
             (getAssetPath env.assetID)),
         Eff.updateVideo
           { userID := video.userID,
             videoURL := some (encodeVideoURL env.s3Bucket
               (filepathJoin
                 (if ratio = str "16:9" then str "landscape"
                   else if ratio = str "9:16" then str "portrait"
                   else str "other")
                 (getAssetPath env.assetID))) },
         Eff.closeFile pp, Eff.removeFile pp, Eff.closeFile env.tempName,
         Eff.removeFile env.tempName] := by
      simp [handlerUploadVideo, uploadPipeline, hval, hct, hcp, hsk, hps, har,
        hfs, hop, hpo, hup, finish]
    exact Or.inr (Or.inr (Or.inr (Or.inr (Or.inr
      ⟨_, _, _, _, heff, rfl, rfl, rfl, rfl, rfl, rfl, streams, rfl,
        by rw [har]; rfl⟩))))

/-! ### Claim C1 — Location decoding precedence -/

/-- C1 (claim as stated is false): the Location `"https://foo,bar"` fails to
decode in URL form (no `/` after the scheme) but does decode in compact form
(it contains exactly one comma), yet `dbVideoToSignedVideo` rejects it: the
decoder never falls back from URL form to compact form. Moreover the
Location `","` decodes silently to an empty bucket and an empty key. -/
theorem c1_counterexample :
    decodeVideoURL (str "https://foo,bar") = none ∧
    (str "https://foo,bar").count ',' = 1 ∧
    decodeVideoURL (str ",") = some ([], []) := by
  decide

/-- C1 (amended): decoding dispatches on the `"https://"` prefix and never
tries both forms. A Location carrying the prefix is decoded in URL form
only, and fails exactly when the remainder after the scheme contains no `/`;
any other Location is decoded in compact form only, and fails exactly when
it does not contain exactly one comma. (Empty components are possible on
success, as `c1_counterexample` shows.) -/
theorem c1_prefix_dispatch (url : List Char) :
    (goHasPre httpsScheme url = true →
      (decodeVideoURL url = none ↔ '/' ∉ goTrimPre httpsScheme url)) ∧
    (goHasPre httpsScheme url = false →
      (decodeVideoURL url = none ↔ url.count ',' ≠ 1)) := by
  constructor
  · intro h
    cases hsp : goSplitFirst '/' (goTrimPre httpsScheme url) with
    | mk host rest =>
      cases rest with
      | none =>
        have hnone : '/' ∉ goTrimPre httpsScheme url := by
          have h2 := goSplitFirst_none '/' (goTrimPre httpsScheme url)
          rw [hsp] at h2
          exact h2.mp rfl
        simp [decodeVideoURL, h, hsp, hnone]
      | some path =>
        have hmem : '/' ∈ goTrimPre httpsScheme url := by
          by_contra hn
          have h2 := (goSplitFirst_none '/' (goTrimPre httpsScheme url)).mpr hn
          rw [hsp] at h2
          simp at h2
        obtain ⟨d, ds, hd⟩ : ∃ d ds, goSplit '.' host = d :: ds := by
          cases hgs : goSplit '.' host with
          | nil => exact absurd hgs (goSplit_ne_nil '.' host)
          | cons d ds => exact ⟨d, ds, rfl⟩
        simp [decodeVideoURL, h, hsp, hd, hmem]
  · intro h
    have hlen := goSplit_length ',' url
    cases hgs : goSplit ',' url with
    | nil => exact absurd hgs (goSplit_ne_nil ',' url)
    | cons b rest =>
      cases rest with
      | nil =>
        rw [hgs] at hlen
        simp at hlen
        simp [decodeVideoURL, h, hgs]
        omega
      | cons k rest2 =>
        cases rest2 with
        | nil =>
          rw [hgs] at hlen
          simp at hlen
          simp [decodeVideoURL, h, hgs]
          omega
        | cons x xs =>
          rw [hgs] at hlen
          simp at hlen
          simp [decodeVideoURL, h, hgs]
          omega

/-- C1 witness: the amended dispatch theorem applied to the compact-form
Location `"my-bucket,landscape/abc.mp4"`. -/
theorem c1_witness :
    decodeVideoURL (str "my-bucket,landscape/abc.mp4") = none ↔
      (str "my-bucket,landscape/abc.mp4").count ',' ≠ 1 :=
  (c1_prefix_dispatch (str "my-bucket,landscape/abc.mp4")).2 (by decide)

/-! ### Claim C2 — aspect-ratio classification tolerance -/

/-- C2 (claim as stated is false): the pair 169×90 has true ratio exactly
16/9 + 0.1 — within the inclusive 0.1 tolerance of 16/9 that the claim
asserts — yet classification returns `"other"`, because the float64
difference computes to a value at least `0.1`, and the comparison is a
strict `<`. -/
theorem c2_counterexample :
    qle (qabs (qsub ⟨169, 90⟩ ⟨16, 9⟩)) ⟨1, 10⟩ ∧
    classifyDims 169 90 = str "other" := by
  decide

/-- C2 (amended): the tolerance is the strict float64 comparison
`|ratio − target| < 0.1`, whose outcome at exact-boundary ratios is fixed
by IEEE-754 rounding rather than by an inclusive real-number rule: the
claim's own boundary pair (ratio exactly 16/9 − 0.1, e.g. 151×90) does
classify as `16:9`, and 37×80 and 53×80 (9/16 ∓ 0.1) classify as `9:16`,
but 169×90 (16/9 + 0.1) classifies as `other`; ordinary pairs classify by
the within-0.1 rule (1920×1080 → 16:9, 1080×1920 → 9:16, square →
other). -/
theorem c2_float_boundary :
    classifyDims 1920 1080 = str "16:9" ∧
    classifyDims 1080 1920 = str "9:16" ∧
    classifyDims 1000 1000 = str "other" ∧
    classifyDims 151 90 = str "16:9" ∧
    classifyDims 37 80 = str "9:16" ∧
    classifyDims 53 80 = str "9:16" ∧
    classifyDims 169 90 = str "other" := by
  decide

/-! ### Claim C3 — status for a missing record -/

/-- C3 (claim as stated is false): with a well-formed id, a valid credential
and a failing metadata-store lookup, the handler responds 500, not 404. -/
theorem c3_counterexample :
    handlerUploadVideo envC3 = ⟨500, []⟩ ∧
    (handlerUploadVideo envC3).status ≠ 404 := by
  decide

/-- C3 (amended): for every request with a well-formed record id and a valid
credential whose metadata-store lookup fails (which includes the
record-not-found case — the handler does not distinguish), the video-upload
endpoint responds 500 with no effects performed. -/
theorem c3_store_failure_500 (env : UploadEnv)
    (h1 : env.parsedVideoID.isSome = true)
    (h2 : env.bearerToken.isSome = true)
    (h3 : env.jwtUserID.isSome = true)
    (h4 : env.dbVideo = none) :
    handlerUploadVideo env = ⟨500, []⟩ := by
  obtain ⟨a, ha⟩ := Option.isSome_iff_exists.mp h1
  obtain ⟨b, hb⟩ := Option.isSome_iff_exists.mp h2
  obtain ⟨c, hc⟩ := Option.isSome_iff_exists.mp h3
  simp [handlerUploadVideo, validateUpload, ha, hb, hc, h4]

/-- C3 witness: the amended theorem applied to the concrete environment
`envC3`. -/
theorem c3_witness : handlerUploadVideo envC3 = ⟨500, []⟩ :=
  c3_store_failure_500 envC3 (by decide) (by decide) (by decide) rfl

/-! ### Claim C4 — Location persisted only after successful upload -/

/-- C4: whenever the handler performs a metadata-store update, every prior
stage (staging, copy, seek, probe and classification, remux, open, and the
object-store upload) succeeded, and the update appears in the effect trace
strictly after a successful `putObject` to the configured bucket; by
contraposition, a failure in any of those stages means no Location is ever
persisted. -/
theorem c4_update_after_put (env : UploadEnv) (v : DBVideo)
    (h : Eff.updateVideo v ∈ (handlerUploadVideo env).effects) :
    env.createTempOk = true ∧ env.copyOk = true ∧ env.seekOk = true ∧
    env.openOk = true ∧ env.putObjectOk = true ∧
    env.fastStart.isSome = true ∧
    (∃ ss, env.probeStreams = some ss ∧
      (getVideoAspectRatio ss).isSome = true) ∧
    ∃ pre post, (handlerUploadVideo env).effects =
        pre ++ Eff.updateVideo v :: post ∧
      ∃ k, Eff.putObject env.s3Bucket k ∈ pre := by
  rcases handler_effects_shape env with h0 | ⟨t, h0⟩ | ⟨t, p, h0⟩ | ⟨t, p, h0⟩ |
    ⟨t, p, k, h0⟩ | ⟨t, p, k, v2, h0, hct, hcp, hsk, hop, hpo, hfs, hpl⟩
  · rw [h0] at h; simp at h
  · rw [h0] at h; simp at h
  · rw [h0] at h; simp at h
  · rw [h0] at h; simp at h
  · rw [h0] at h; simp at h
  · rw [h0] at h
    simp at h
    subst h
    exact ⟨hct, hcp, hsk, hop, hpo, hfs, hpl,
      [Eff.createTemp t, Eff.fastStartOutput p, Eff.putObject env.s3Bucket k],
      [Eff.closeFile p, Eff.removeFile p, Eff.closeFile t, Eff.removeFile t],
      by rw [h0]; simp, ⟨k, by simp⟩⟩

/-- C4 witness: the theorem applied to the all-successful environment; the
persisted record carries the compact Location
`"tubely,landscape/vid123.mp4"`. -/
theorem c4_witness :
    envBase.createTempOk = true ∧ envBase.copyOk = true ∧
    envBase.seekOk = true ∧ envBase.openOk = true ∧
    envBase.putObjectOk = true ∧ envBase.fastStart.isSome = true ∧
    (∃ ss, envBase.probeStreams = some ss ∧
      (getVideoAspectRatio ss).isSome = true) ∧
    ∃ pre post, (handlerUploadVideo envBase).effects =
        pre ++ Eff.updateVideo
          ⟨str "user-1", some (str "tubely,landscape/vid123.mp4")⟩ :: post ∧
      ∃ k, Eff.putObject envBase.s3Bucket k ∈ pre :=
  c4_update_after_put envBase
    ⟨str "user-1", some (str "tubely,landscape/vid123.mp4")⟩ (by decide)

/-! ### Claim C5 — intermediate files removed on every exit path -/

/-- C5: on every run of the handler, every staged temp file and every
fast-start output file that appears in the effect trace is also removed in
that same trace — the deferred removals fire on every exit path. -/
theorem c5_cleanup (env : UploadEnv) (n : List Char) :
    (Eff.createTemp n ∈ (handlerUploadVideo env).effects →
      Eff.removeFile n ∈ (handlerUploadVideo env).effects) ∧
    (Eff.fastStartOutput n ∈ (handlerUploadVideo env).effects →
      Eff.removeFile n ∈ (handlerUploadVideo env).effects) := by
  rcases handler_effects_shape env with h0 | ⟨t, h0⟩ | ⟨t, p, h0⟩ | ⟨t, p, h0⟩ |
    ⟨t, p, k, h0⟩ | ⟨t, p, k, v2, h0, -⟩ <;>
    rw [h0] <;> constructor <;> intro hm <;> simp at hm <;> simp [hm]

/-- C5 witness: in the all-successful run the staged temp file is removed. -/
theorem c5_witness :
    Eff.removeFile (str "tubely-upload-1.mp4") ∈
      (handlerUploadVideo envBase).effects :=
  (c5_cleanup envBase (str "tubely-upload-1.mp4")).1 (by decide)

/-! ### Claim C6 — compact Location round-trip -/

/-- C6 (claim as stated is false): the bucket `"https://b"` and key `"k"`
contain no comma, yet encoding them compactly and decoding does not recover
them — the encoded string starts with `"https://"`, so the decoder takes the
URL-form branch and fails. -/
theorem c6_counterexample :
    ',' ∉ str "https://b" ∧ ',' ∉ str "k" ∧
    decodeVideoURL (encodeVideoURL (str "https://b") (str "k")) = none := by
  decide

/-- C6 (amended): for every bucket containing no comma and not starting with
`"https://"`, and every key containing no comma, encoding as the compact
`"bucket,key"` Location and decoding recovers exactly the original pair. -/
theorem c6_roundtrip (b k : List Char) (hb : ',' ∉ b) (hk : ',' ∉ k)
    (hpre : goHasPre httpsScheme b = false) :
    decodeVideoURL (encodeVideoURL b k) = some (b, k) := by
  have h1 : goHasPre httpsScheme (b ++ ',' :: k) = false := by
    cases hcc : goHasPre httpsScheme (b ++ ',' :: k) with
    | false => rfl
    | true =>
      have h3 := goHasPre_extend ',' httpsScheme b k (by decide) hcc
      rw [hpre] at h3
      exact absurd h3 (by simp)
  have h2 : goSplit ',' (b ++ ',' :: k) = [b, k] := by
    rw [goSplit_append ',' b k hb, goSplit_no_sep ',' k hk]
  simp [decodeVideoURL, encodeVideoURL, h1, h2]

/-- C6 witness: the round-trip theorem at the bucket `"tubely"` and key
`"landscape/abc.mp4"`. -/
theorem c6_witness :
    decodeVideoURL (encodeVideoURL (str "tubely") (str "landscape/abc.mp4")) =
      some (str "tubely", str "landscape/abc.mp4") :=
  c6_roundtrip (str "tubely") (str "landscape/abc.mp4") (by decide) (by decide)
    (by decide)

/-! ### Claim C7 — URL-form Location decoding -/

/-- C7: URL-form decoding of `"https://" ++ host ++ "/" ++ path` (host free
of `/`) yields the first dot-delimited label of the host as the bucket and
the remainder of the path as the key. -/
theorem c7_urlform_decode (host path : List Char) (hh : '/' ∉ host) :
    decodeVideoURL (httpsScheme ++ (host ++ '/' :: path)) =
      some (host.takeWhile (fun x => x != '.'), path) := by
  have h1 : goHasPre httpsScheme (httpsScheme ++ (host ++ '/' :: path)) =
      true := goHasPre_append _ _
  have h2 : goTrimPre httpsScheme (httpsScheme ++ (host ++ '/' :: path)) =
      host ++ '/' :: path := goTrimPre_append _ _
  have h3 : goSplitFirst '/' (host ++ '/' :: path) = (host, some path) :=
    goSplitFirst_append '/' host path hh
  obtain ⟨rest, h4⟩ := goSplit_head_takeWhile '.' host
  simp [decodeVideoURL, h1, h2, h3, h4]

/-- C7 witness: the decode theorem at the claim's example Location,
recovering bucket `"my-bucket"` and key `"landscape/abc.mp4"`. -/
theorem c7_witness :
    decodeVideoURL
      (str "https://my-bucket.s3.eu-north-1.amazonaws.com/landscape/abc.mp4") =
      some (str "my-bucket", str "landscape/abc.mp4") := by
  have h := c7_urlform_decode (str "my-bucket.s3.eu-north-1.amazonaws.com")
    (str "landscape/abc.mp4") (by decide)
  rw [show str "https://my-bucket.s3.eu-north-1.amazonaws.com/landscape/abc.mp4" =
    httpsScheme ++ (str "my-bucket.s3.eu-north-1.amazonaws.com" ++
      '/' :: str "landscape/abc.mp4") from by decide]
  rw [h]
  decide

/-! ### Claim C8 — content-type gate before staging -/

/-- C8: a request that passes id, credential, ownership and form parsing but
whose file part's Content-Type does not parse to the media type `video/mp4`
(the comparison Go performs after `mime.ParseMediaType` normalisation) is
rejected with 400 and an empty effect trace — in particular before any temp
file is created. -/
theorem c8_content_type_gate (env : UploadEnv) (u ct : List Char)
    (video : DBVideo)
    (h1 : env.parsedVideoID.isSome = true)
    (h2 : env.bearerToken.isSome = true)
    (h3 : env.jwtUserID = some u)
    (h4 : env.dbVideo = some video)
    (h5 : video.userID = u)
    (h6 : env.formFile = some ct)
    (h7 : parseMediaType ct ≠ some (str "video/mp4")) :
    handlerUploadVideo env = ⟨400, []⟩ := by
  obtain ⟨a, ha⟩ := Option.isSome_iff_exists.mp h1
  obtain ⟨b, hb⟩ := Option.isSome_iff_exists.mp h2
  cases hmt : parseMediaType ct with
  | none =>
    simp [handlerUploadVideo, validateUpload, ha, hb, h3, h4, h5, h6, hmt]
  | some mtv =>
    have hne : ¬(mtv = str "video/mp4") := fun e => h7 (by rw [hmt, e])
    simp [handlerUploadVideo, validateUpload, ha, hb, h3, h4, h5, h6, hmt, hne]

/-- C8 witness: the gate theorem at the concrete environment whose part
declares `image/png`. -/
theorem c8_witness : handlerUploadVideo envC8 = ⟨400, []⟩ :=
  c8_content_type_gate envC8 (str "user-1") (str "image/png")
    ⟨str "user-1", none⟩ (by decide) (by decide) rfl rfl rfl rfl (by decide)

/-! ### Claim C9 — object key layout and persisted Location -/

/-- C9: in every run in which all stages succeed, the object is uploaded
under the key `<dir>/<asset-id>.mp4` — `dir` being `landscape` for a `16:9`
classification, `portrait` for `9:16`, and `other` otherwise — and the
record persisted to the metadata store carries exactly the compact Location
`<bucket>,<dir>/<asset-id>.mp4`. -/
theorem c9_key_layout (env : UploadEnv) (video : DBVideo) (mt : List Char)
    (ss : List GoStream) (ratio pp : List Char)
    (hv : validateUpload env = .ok (video, mt))
    (h1 : env.createTempOk = true) (h2 : env.copyOk = true)
    (h3 : env.seekOk = true) (h4 : env.probeStreams = some ss)
    (h5 : getVideoAspectRatio ss = some ratio)
    (h6 : env.fastStart = some pp) (h7 : env.openOk = true)
    (h8 : env.putObjectOk = true) (h9 : env.updateOk = true) :
    ∃ dir,
      ((ratio = str "16:9" ∧ dir = str "landscape") ∨
        (ratio = str "9:16" ∧ dir = str "portrait") ∨
        (ratio ≠ str "16:9" ∧ ratio ≠ str "9:16" ∧ dir = str "other")) ∧
      Eff.putObject env.s3Bucket (dir ++ '/' :: (env.assetID ++ str ".mp4"))
        ∈ (handlerUploadVideo env).effects ∧
      Eff.updateVideo
        { userID := video.userID,
          videoURL := some (env.s3Bucket ++ ',' ::
            (dir ++ '/' :: (env.assetID ++ str ".mp4"))) }
        ∈ (handlerUploadVideo env).effects := by
  have heff : (handlerUploadVideo env).effects =
      [Eff.createTemp env.tempName, Eff.fastStartOutput pp,
       Eff.putObject env.s3Bucket
         (filepathJoin
           (if ratio = str "16:9" then str "landscape"
             else if ratio = str "9:16" then str "portrait"
             else str "other")
           (getAssetPath env.assetID)),
       Eff.updateVideo
         { userID := video.userID,
           videoURL := some (encodeVideoURL env.s3Bucket
             (filepathJoin
               (if ratio = str "16:9" then str "landscape"
                 else if ratio = str "9:16" then str "portrait"
                 else str "other")
               (getAssetPath env.assetID))) },
       Eff.closeFile pp, Eff.removeFile pp, Eff.closeFile env.tempName,
       Eff.removeFile env.tempName] := by
    simp [handlerUploadVideo, uploadPipeline, hv, h1, h2, h3, h4, h5, h6, h7,
      h8, h9, finish]
  by_cases hr1 : ratio = str "16:9"
  · refine ⟨str "landscape", Or.inl ⟨hr1, rfl⟩, ?_, ?_⟩ <;>
      rw [heff] <;> simp [hr1, filepathJoin, getAssetPath, encodeVideoURL]
  · by_cases hr2 : ratio = str "9:16"
    · refine ⟨str "portrait", Or.inr (Or.inl ⟨hr2, rfl⟩), ?_, ?_⟩ <;>
        rw [heff] <;>
        simp [hr1, hr2, filepathJoin, getAssetPath, encodeVideoURL] <;>
        decide
    · refine ⟨str "other", Or.inr (Or.inr ⟨hr1, hr2, rfl⟩), ?_, ?_⟩ <;>
        rw [heff] <;>
        simp [hr1, hr2, filepathJoin, getAssetPath, encodeVideoURL]

/-- C9 witness: the key-layout theorem at the all-successful environment:
the 1920×1080 probe classifies `16:9`, the object key is
`landscape/vid123.mp4`, and the persisted Location is
`tubely,landscape/vid123.mp4`. -/
theorem c9_witness :
    ∃ dir,
      ((str "16:9" = str "16:9" ∧ dir = str "landscape") ∨
        (str "16:9" = str "9:16" ∧ dir = str "portrait") ∨
        (str "16:9" ≠ str "16:9" ∧ str "16:9" ≠ str "9:16" ∧
          dir = str "other")) ∧
      Eff.putObject (str "tubely") (dir ++ '/' :: (str "vid123" ++ str ".mp4"))
        ∈ (handlerUploadVideo envBase).effects ∧
      Eff.updateVideo
        { userID := str "user-1",
          videoURL := some (str "tubely" ++ ',' ::
            (dir ++ '/' :: (str "vid123" ++ str ".mp4"))) }
        ∈ (handlerUploadVideo envBase).effects :=
  c9_key_layout envBase ⟨str "user-1", none⟩ (str "video/mp4") [⟨1920, 1080⟩]
    (str "16:9") (str "tubely-upload-1.processing.mp4") rfl rfl rfl rfl rfl
    (by decide) rfl rfl rfl rfl

/-! ### Claim C10 — missing dimensions fail classification -/

/-- C10: when no stream reports both a non-zero width and a non-zero height
(including the no-streams case), `getVideoAspectRatio` returns an error and
never reaches the width/height division. -/
theorem c10_no_valid_dims (streams : List GoStream)
    (h : ∀ s ∈ streams, s.width = 0 ∨ s.height = 0) :
    getVideoAspectRatio streams = none := by
  cases streams with
  | nil => rfl
  | cons s rest =>
    have hp := pickDimensions_none (s :: rest) h
    simp [getVideoAspectRatio, hp]

/-- C10 witness: the failure theorem at the empty probe result and at a
probe result whose streams report a zero height and a zero width
respectively. -/
theorem c10_witness :
    getVideoAspectRatio [] = none ∧
    getVideoAspectRatio [⟨1920, 0⟩, ⟨0, 1080⟩] = none :=
  ⟨c10_no_valid_dims [] (by simp),
   c10_no_valid_dims [⟨1920, 0⟩, ⟨0, 1080⟩] (by decide)⟩
